import Mathlib

set_option maxRecDepth 200000
set_option maxHeartbeats 1000000

/-!
Verification of the meson `cmake` module (`mesonbuild/modules/cmake.py`):
the CMake package-config / version-file generators and the CMake
subproject bridge.  Pure fragments of the module are embedded as
executable Lean functions; stateful fragments (the probe cache, the
atomic file write) are embedded as explicit state passing.

Helpers from `mesonbuild/mesonlib.py` (`do_replacement`,
`replace_if_different`) belong to the repository but are not part of the
module file; where a definition depends on their behaviour it is
modelled from the specification text, and marked as such in its doc
comment.
-/

namespace MesonCMake

/-! ## The substitution engine

`create_package_file` compiles the scanner regular expression
`(?:\\\\)+(?=\\?@)|\\@|@([-a-zA-Z0-9_]+)@` and hands it to
`mesonlib.do_replacement`.  The scanner below is a character-level
shallow embedding of `re.sub` with exactly this regex:

* a maximal run of `k ≥ 2` backslashes immediately followed by `@`
  consumes `2*(k/2)` backslashes and emits `k/2` of them (the first
  alternative: one or more backslash pairs, with lookahead `\?@`);
* the two-character sequence `\@` emits a literal `@`;
* a well-formed `@name@` token (`name` nonempty over `[-a-zA-Z0-9_]`)
  is substituted.

Modelled from the spec: `mesonlib.do_replacement` is not under `src/`;
its per-match replacement behaviour follows spec section 4.1 — a mapped
token is replaced by its value, an unmapped token is kept verbatim in
the output and its name is recorded in the missing-keys result. -/

/-- The character class `[-a-zA-Z0-9_]` of the token grammar. -/
def isNameChar (c : Char) : Bool :=
  c == '-' || c.isAlpha || c.isDigit || c == '_'

/-- Maximal leading run of characters of the token class (greedy
`[-a-zA-Z0-9_]+` without its closing `@`). -/
def takeName : List Char → List Char × List Char
  | [] => ([], [])
  | c :: r =>
    if isNameChar c then ((c :: (takeName r).1), (takeName r).2)
    else ([], c :: r)

/-- Number of leading backslashes. -/
def countBS : List Char → Nat
  | [] => 0
  | c :: r => if c = '\\' then countBS r + 1 else 0

/-- One position of the scan: the three regex alternatives tried at the
current character, with `rec` continuing the scan after the match (or
after one copied character). -/
def doReplStep (conf : List (List Char × List Char))
    (rec : List Char → List Char × List (List Char)) (c : Char) (r : List Char) :
    List Char × List (List Char) :=
  if c = '\\' then
    if 2 ≤ countBS (c :: r) ∧ ((c :: r).drop (countBS (c :: r))).head? = some '@' then
      (List.replicate (countBS (c :: r) / 2) '\\' ++
         (rec ((c :: r).drop (2 * (countBS (c :: r) / 2)))).1,
       (rec ((c :: r).drop (2 * (countBS (c :: r) / 2)))).2)
    else if r.head? = some '@' then
      ('@' :: (rec r.tail).1, (rec r.tail).2)
    else
      ('\\' :: (rec r).1, (rec r).2)
  else if c = '@' then
    if (takeName r).1 ≠ [] ∧ ((takeName r).2).head? = some '@' then
      match List.lookup (takeName r).1 conf with
      | some v =>
        (v ++ (rec ((takeName r).2).tail).1, (rec ((takeName r).2).tail).2)
      | none =>
        ('@' :: (takeName r).1 ++ '@' :: (rec ((takeName r).2).tail).1,
         (takeName r).1 :: (rec ((takeName r).2).tail).2)
    else
      ('@' :: (rec r).1, (rec r).2)
  else
    (c :: (rec r).1, (rec r).2)

/-- One fuel unit per scanned position; every step consumes at least one
character, so fuel `s.length` is always enough. -/
def doReplAux (conf : List (List Char × List Char)) :
    Nat → List Char → List Char × List (List Char)
  | 0, _ => ([], [])
  | _+1, [] => ([], [])
  | f+1, c :: r => doReplStep conf (doReplAux conf f) c r

/-- `mesonlib.do_replacement(regex, line, 'meson', confdata)`: output
line and the list of missing placeholder names, in scan order. -/
def do_replacement (conf : List (List Char × List Char)) (s : List Char) :
    List Char × List (List Char) :=
  doReplAux conf s.length s

/-! ## Path helpers

POSIX `os.path` semantics as used by the module: `isabs`, two-argument
`join`, and `relpath` for already-absolute normalized inputs
(`posixpath.relpath` splits both paths into nonempty components, strips
the longest common component prefix, and emits one `..` per remaining
component of `start` followed by the remaining components of `path`). -/

/-- `os.path.isabs` (POSIX): the path starts with a slash. -/
def isabs (p : String) : Bool :=
  p.data.head? == some '/'

/-- Two-argument `os.path.join` (POSIX). -/
def joinPath (a b : String) : String :=
  if isabs b then b
  else if a.data = [] ∨ a.data.getLast? = some '/' then a ++ b
  else a ++ "/" ++ b

/-- Three-argument `os.path.join` (left fold). -/
def join3 (a b c : String) : String := joinPath (joinPath a b) c

/-- Split on `/` (keeping empty fields, like Python `str.split('/')`). -/
def splitSlash : List Char → List (List Char)
  | [] => [[]]
  | c :: r =>
    if c = '/' then [] :: splitSlash r
    else
      match splitSlash r with
      | [] => [[c]]
      | h :: t => (c :: h) :: t

/-- The nonempty `/`-separated components of a path. -/
def splitParts (p : String) : List (List Char) :=
  (splitSlash p.data).filter (fun x => !x.isEmpty)

/-- Length of the longest common component prefix. -/
def commonPrefixLen : List (List Char) → List (List Char) → Nat
  | a :: as, b :: bs => if a = b then commonPrefixLen as bs + 1 else 0
  | _, _ => 0

/-- Interleave components with `/`. -/
def joinComponents : List (List Char) → List Char
  | [] => []
  | [x] => x
  | x :: xs => x ++ '/' :: joinComponents xs

/-- `os.path.relpath(path, start)` for absolute normalized inputs. -/
def relpath (path start : String) : String :=
  let sl := splitParts start
  let pl := splitParts path
  let i := commonPrefixLen sl pl
  let rel := List.replicate (sl.length - i) "..".data ++ pl.drop i
  if rel.isEmpty then "." else String.mk (joinComponents rel)

/-! ## The library-pattern matcher

`configure_package_config_file` decides whether to emit the usr-merge
relocation block with `re.match('^(/usr)?/lib(64)?/.+', abs_install_dir)`:
an optional literal `/usr`, a literal `/lib`, an optional literal `64`,
a slash, and at least one further character (`.` excludes newline; the
match is not anchored at the end). -/

/-- Strip a literal prefix, returning the remainder on success. -/
def stripLit : List Char → List Char → Option (List Char)
  | [], s => some s
  | _ :: _, [] => none
  | p :: ps, c :: s => if p = c then stripLit ps s else none

/-- The `/.+` tail: a slash then at least one non-newline character. -/
def dotPlus : List Char → Bool
  | a :: b :: _ => a == '/' && b != '\n'
  | _ => false

/-- The `64` optional group taken, then the `/.+` tail. -/
def lib64Tail : List Char → Bool
  | a :: b :: v => a == '6' && b == '4' && dotPlus v
  | _ => false

/-- After the literal `/lib`: either `/.+` directly or `64/.+`. -/
def afterLib (u : List Char) : Bool := dotPlus u || lib64Tail u

/-- The `/lib(64)?/.+` part of the pattern. -/
def libPart (t : List Char) : Bool :=
  match stripLit "/lib".data t with
  | some u => afterLib u
  | none => false

/-- `re.match('^(/usr)?/lib(64)?/.+', s)` as a Boolean: first with the
optional `/usr` taken, then without (regex backtracking collapses to a
disjunction for match existence). -/
def reMatchLibPattern (s : List Char) : Bool :=
  (match stripLit "/usr".data s with
   | some t => libPart t
   | none => false) || libPart s

/-- Lines 258–267 of `configure_package_config_file`: resolve a possibly
relative `install_dir` against the prefix, compute the relative path
from the absolute install directory back to the prefix, and decide
whether the relocation-extra block is generated. -/
def resolveInstallPath (pfx install_dir : String) : String × Bool :=
  (relpath pfx (if isabs install_dir then install_dir else joinPath pfx install_dir),
   reMatchLibPattern (if isabs install_dir then install_dir
                      else joinPath pfx install_dir).data)

/-! ## Python-level values and errors

Keyword-argument values are dynamically typed; the module checks them
with `isinstance`.  Errors: `mesonlib.MesonException` and
`InterpreterException` carry their message; reading a Python local that
was never assigned raises `UnboundLocalError`; `os.path.join` with a
non-string raises `TypeError`; a failed `open` would raise an I/O
error (`ioError` exists to state that a path is *not* reported through
it). -/

inductive PyVal where
  | str (s : String)
  | int (n : Int)
  | file (p : String)
  | confData (cd : List (List Char × List Char))
deriving DecidableEq

inductive PyError where
  | mesonException (msg : String)
  | interpreterException (msg : String)
  | unboundLocalError (var : String)
  | typeError (msg : String)
  | ioError (msg : String)
deriving DecidableEq

instance {ε α : Type} [DecidableEq ε] [DecidableEq α] : DecidableEq (Except ε α) :=
  fun a b =>
    match a, b with
    | .error e, .error f =>
      if h : e = f then isTrue (by rw [h])
      else isFalse (by intro hh; cases hh; exact h rfl)
    | .ok x, .ok y =>
      if h : x = y then isTrue (by rw [h])
      else isFalse (by intro hh; cases hh; exact h rfl)
    | .error _, .ok _ => isFalse (by intro hh; cases hh)
    | .ok _, .error _ => isFalse (by intro hh; cases hh)

/-- `'{}'.format(v)` (enough of it for the values that occur here). -/
def pyFormat : PyVal → String
  | .str s => s
  | .int n => toString n
  | .file p => "<File " ++ p ++ ">"
  | .confData _ => "<ConfigurationData>"

/-! ## The version-file generator (`write_basic_package_version_file`) -/

/-- Line 25 of the module. -/
def COMPATIBILITIES : List String :=
  ["AnyNewerVersion", "SameMajorVersion", "SameMinorVersion", "ExactVersion"]

/-- The build-configuration state the version-file generator reads:
the builtin options, the scratch directory, the outcome of
`detect_cmake` (collapsed to its Boolean result plus the root it
caches), the set of files that exist on disk, and the pointer size the
compiler probe reports. -/
structure VersionEnv where
  libdir : String
  scratch_dir : String
  cmakeDetected : Bool
  cmake_root : String
  existing_files : List String
  voidp_size : Nat

/-- The keyword arguments of `write_basic_package_version_file`
(`none` = key absent). -/
structure VersionKwargs where
  version : Option PyVal
  name : Option PyVal
  compatibility : Option PyVal
  install_dir : Option PyVal

/-- What a successful run produces: the rendered file's path, its
install root, the template it was rendered from, and the two-key
configuration mapping handed to `mesonlib.do_conf_file`. -/
structure VersionResult where
  version_file : String
  pkgroot : String
  template_file : String
  conf : List (List Char × List Char)
deriving DecidableEq

/-- Lines 153–191: validate `version`, `name`, `compatibility` (default
`AnyNewerVersion`, must be one of `COMPATIBILITIES`), require CMake
detection, default `install_dir` to `<libdir>/cmake/<name>`, require the
mode's template file to exist under the CMake root, then render.  The
rendering itself (`mesonlib.do_conf_file`) is outside the module; a
successful run is represented by the `VersionResult` record. -/
def write_basic_package_version_file (env : VersionEnv) (kwargs : VersionKwargs) :
    Except PyError VersionResult :=
  match kwargs.version with
  | some (.str version) =>
    match kwargs.name with
    | some (.str name) =>
      match kwargs.compatibility.getD (.str "AnyNewerVersion") with
      | .str compatibility =>
        if compatibility ∈ COMPATIBILITIES then
          if env.cmakeDetected then
            match kwargs.install_dir.getD (.str (join3 env.libdir "cmake" name)) with
            | .str pkgroot =>
              if join3 env.cmake_root "Modules"
                  ("BasicConfigVersion-" ++ compatibility ++ ".cmake.in") ∈
                  env.existing_files then
                .ok ⟨joinPath env.scratch_dir (name ++ "ConfigVersion.cmake"),
                     pkgroot,
                     join3 env.cmake_root "Modules"
                       ("BasicConfigVersion-" ++ compatibility ++ ".cmake.in"),
                     [("CVF_VERSION".data, version.data),
                      ("CMAKE_SIZEOF_VOID_P".data, (toString env.voidp_size).data)]⟩
              else
                .error (.mesonException
                  ("your cmake installation doesn\x27t support the " ++ compatibility ++
                   " compatibility"))
            | _ => .error (.mesonException "Install_dir must be a string.")
          else .error (.mesonException "Unable to find cmake")
        else
          .error (.mesonException
            "compatibility must be either AnyNewerVersion, SameMajorVersion or ExactVersion.")
      | _ => .error (.mesonException "compatibility is not string.")
    | _ => .error (.mesonException "Name not specified.")
  | _ => .error (.mesonException "Version must be specified.")

/-! ## The package-init composer and the rendering pass of
`create_package_file` -/

/-- Lines 28–34 of the module (`PACKAGE_INIT_BASE`). -/
def PACKAGE_INIT_BASE : String :=
  "\n####### Expanded from \\@PACKAGE_INIT\\@ by configure_package_config_file() #######\n####### Any changes to this file will be overwritten by the next CMake run ####\n####### The input file was @inputFileName@ ########\n\nget_filename_component(PACKAGE_PREFIX_DIR \"${CMAKE_CURRENT_LIST_DIR}/@PACKAGE_RELATIVE_PATH@\" ABSOLUTE)\n"

/-- Lines 35–45 of the module (`PACKAGE_INIT_EXT`). -/
def PACKAGE_INIT_EXT : String :=
  "\n# Use original install prefix when loaded through a \"/usr move\"\n# cross-prefix symbolic link such as /lib -> /usr/lib.\nget_filename_component(_realCurr \"${CMAKE_CURRENT_LIST_DIR}\" REALPATH)\nget_filename_component(_realOrig \"@absInstallDir@\" REALPATH)\nif(_realCurr STREQUAL _realOrig)\n  set(PACKAGE_PREFIX_DIR \"@installPrefix@\")\nendif()\nunset(_realOrig)\nunset(_realCurr)\n"

/-- Lines 46–55 of the module (`PACKAGE_INIT_SET_AND_CHECK`). -/
def PACKAGE_INIT_SET_AND_CHECK : String :=
  "\nmacro(set_and_check _var _file)\n  set(${_var} \"${_file}\")\n  if(NOT EXISTS \"${_file}\")\n    message(FATAL_ERROR \"File or directory ${_file} referenced by variable ${_var} does not exist !\")\n  endif()\nendmacro()\n\n####################################################################################\n"

/-- One position of Python `str.replace(pat, rep)`: at each position the
pattern is tried; on a hit the replacement is emitted and the scan
resumes after the matched occurrence (non-overlapping, left to right). -/
def replaceAllAux (pat rep : List Char) : Nat → List Char → List Char
  | 0, s => s
  | _+1, [] => []
  | f+1, c :: r =>
    if pat.isPrefixOf (c :: r) then rep ++ replaceAllAux pat rep f ((c :: r).drop pat.length)
    else c :: replaceAllAux pat rep f r

/-- Python `s.replace(pat, rep)` for a nonempty pattern. -/
def replaceAll (pat rep s : List Char) : List Char :=
  if pat.isEmpty then s else replaceAllAux pat rep s.length s

/-- Lines 194–197: the Package-Init Block.  `PACKAGE_INIT_BASE` with
`@PACKAGE_RELATIVE_PATH@` replaced first and `@inputFileName@` second,
then the relocation extra (possibly empty), then the `set_and_check`
trailer. -/
def composePackageInit (infile rel extra : List Char) : List Char :=
  replaceAll "@inputFileName@".data infile
    (replaceAll "@PACKAGE_RELATIVE_PATH@".data rel PACKAGE_INIT_BASE.data)
  ++ extra ++ PACKAGE_INIT_SET_AND_CHECK.data

/-- Lines 208–211: per line, `@PACKAGE_INIT@` is textually replaced by
the composed block, then the single generic scan runs over the whole
(expanded) line; the missing-keys set returned by the engine is
discarded by this caller. -/
def processLine (conf : List (List Char × List Char)) (package_init line : List Char) :
    List Char :=
  (do_replacement conf (replaceAll "@PACKAGE_INIT@".data package_init line)).1

/-- The rendering pass of `create_package_file` (lines 193–211): compose
the block once, then process every template line. -/
def create_package_file_render (conf : List (List Char × List Char))
    (infile rel extra : List Char) (lns : List (List Char)) : List (List Char) :=
  lns.map (processLine conf (composePackageInit infile rel extra))

/-! ## `configure_package_config_file` -/

/-- The `input` keyword may be a single value or a list of values. -/
inductive InputArg where
  | single (v : PyVal)
  | several (vs : List PyVal)
deriving DecidableEq

/-- Keyword arguments of `configure_package_config_file`
(`none` = key absent). -/
structure ConfigureKwargs where
  input : Option InputArg
  name : Option PyVal
  install_dir : Option PyVal
  configuration : Option PyVal

/-- The interpreter state the operation reads: directories, the builtin
`libdir` and `prefix` options, and the readable files (path ↦ lines, as
`readlines` would produce them). -/
structure ConfigureEnv where
  source_dir : String
  build_dir : String
  subdir : String
  libdir : String
  installPrefix : String
  input_files : List (String × List (List Char))

/-- A successful run: the rendered lines and the data recorded for the
install step. -/
structure ConfigureResult where
  rendered : List (List Char)
  ofile_path : String
  ofile_fname : String
  install_dir : String
deriving DecidableEq

/-- `os.path.split`: split at the last slash; the head keeps no trailing
slash unless it is all slashes. -/
def pathSplit (p : String) : String × String :=
  let rev := p.data.reverse
  let tailRev := rev.takeWhile (fun c => c != '/')
  let headChars := (rev.drop tailRev.length).reverse
  let head :=
    if headChars.all (fun c => c == '/') then headChars
    else (headChars.reverse.dropWhile (fun c => c == '/')).reverse
  (String.mk head, String.mk tailRev.reverse)

/-- Lines 220–279.  The keyword checks in source order: positional
arguments rejected; `input` demanded, unwrapped from a singleton list,
and required to be a string or a `File` (a string is turned into a
source `File` under the current subdir); `name` demanded; the output
path split from `<subdir>/<name>Config.cmake`; then the `install_dir`
block of lines 247–250 — the local is assigned **only** when the key is
absent, and the `isinstance` test on line 249 reads it, so a present key
raises `UnboundLocalError`; then `configuration` is demanded and must be
configuration data; finally the install path is resolved and the
template rendered (reading a missing input file fails with the
`Could not read input file` error of line 203). -/
def configure_package_config_file (env : ConfigureEnv) (args : List PyVal)
    (kwargs : ConfigureKwargs) : Except PyError ConfigureResult :=
  if args ≠ [] then
    .error (.mesonException "configure_package_config_file takes only keyword arguments.")
  else
    match kwargs.input with
    | none => .error (.mesonException "configure_package_config_file requires \"input\" keyword.")
    | some inArg =>
      match (match inArg with
             | .single v => Except.ok v
             | .several [v] => Except.ok v
             | .several _ => Except.error (PyError.mesonException
                 "Keyword argument \x27input\x27 requires exactly one file")) with
      | .error e => .error e
      | .ok v =>
        match (match v with
               | .str s => Except.ok (joinPath env.subdir s)
               | .file p => Except.ok p
               | _ => Except.error (PyError.mesonException "input must be a string or a file")) with
        | .error e => .error e
        | .ok relName =>
          match kwargs.name with
          | none => .error (.mesonException "\"name\" not specified.")
          | some nv =>
            match kwargs.install_dir with
            | some _ => .error (.unboundLocalError "install_dir")
            | none =>
              match nv with
              | .str n =>
                match kwargs.configuration with
                | none => .error (.mesonException "\"configuration\" not specified.")
                | some (.confData cd) =>
                  match (env.input_files).lookup (joinPath env.source_dir relName) with
                  | none => .error (.mesonException
                      ("Could not read input file " ++ joinPath env.source_dir relName))
                  | some lns =>
                    .ok ⟨create_package_file_render cd
                           (joinPath env.source_dir relName).data
                           (resolveInstallPath env.installPrefix
                             (join3 env.libdir "cmake" n)).1.data
                           (if (resolveInstallPath env.installPrefix
                                 (join3 env.libdir "cmake" n)).2 then
                              replaceAll "@installPrefix@".data env.installPrefix.data
                                (replaceAll "@absInstallDir@".data
                                  (if isabs (join3 env.libdir "cmake" n) then
                                     join3 env.libdir "cmake" n
                                   else joinPath env.installPrefix
                                     (join3 env.libdir "cmake" n)).data
                                  PACKAGE_INIT_EXT.data)
                            else [])
                           lns,
                         (pathSplit (joinPath env.subdir (pyFormat nv ++ "Config.cmake"))).1,
                         (pathSplit (joinPath env.subdir (pyFormat nv ++ "Config.cmake"))).2,
                         join3 env.libdir "cmake" n⟩
                | some _ => .error (.mesonException
                    "Argument \"configuration\" is not of type configuration_data")
              | _ => .error (.typeError "expected str, bytes or os.PathLike object")

/-! ## The write phase of `create_package_file` (lines 213–218)

A file system is a finite map path ↦ (content, permission bits); the
write phase is the sequence of states it passes through. -/

structure FileInfo where
  content : List Char
  mode : Nat
deriving DecidableEq

abbrev FileSys : Type := List (String × FileInfo)

def lookupFS (fs : FileSys) (p : String) : Option FileInfo := fs.lookup p

def removeFS (fs : FileSys) (p : String) : FileSys := fs.filter (fun e => e.1 != p)

def setFile (fs : FileSys) (p : String) (fi : FileInfo) : FileSys :=
  (p, fi) :: removeFS fs p

/-- `open(path, "w")` + `writelines`: create or truncate with the full
content; an existing file keeps its permission bits, a new one gets the
process default `dmode`. -/
def writeNew (fs : FileSys) (p : String) (content : List Char) (dmode : Nat) : FileSys :=
  match lookupFS fs p with
  | some fi => setFile fs p ⟨content, fi.mode⟩
  | none => setFile fs p ⟨content, dmode⟩

/-- `shutil.copymode(src, dst)`: copy the permission bits of `src` onto
`dst` (no-op here when either is missing; the theorems assume both
exist, as the code has just written `dst` and read `src`). -/
def copymode (fs : FileSys) (src dst : String) : FileSys :=
  match lookupFS fs src, lookupFS fs dst with
  | some si, some di => setFile fs dst ⟨di.content, si.mode⟩
  | _, _ => fs

/-- Modelled from the spec: `mesonlib.replace_if_different` is not under
`src/`; per spec section 4.4 the temporary path atomically replaces the
destination path. -/
def replace_if_different (fs : FileSys) (dst tmp : String) : FileSys :=
  match lookupFS fs tmp with
  | some ti => removeFS (setFile fs dst ti) tmp
  | none => fs

/-- Lines 213–218 as a state trace: initial state, after the temporary
file `outfile + "~"` is written, after `shutil.copymode(infile, tmp)`,
and after `replace_if_different(outfile, tmp)`. -/
def create_package_file_write (fs : FileSys) (infile outfile : String)
    (rendered : List Char) (dmode : Nat) : List FileSys :=
  [fs,
   writeNew fs (outfile ++ "~") rendered dmode,
   copymode (writeNew fs (outfile ++ "~") rendered dmode) infile (outfile ++ "~"),
   replace_if_different
     (copymode (writeNew fs (outfile ++ "~") rendered dmode) infile (outfile ++ "~"))
     outfile (outfile ++ "~")]

/-- Whether `needle` occurs as a contiguous subsequence of `hay` (used
to state what an error message does or does not mention). -/
def containsSeq (needle : List Char) : List Char → Bool
  | [] => needle.isEmpty
  | c :: t => needle.isPrefixOf (c :: t) || containsSeq needle t

/-! ## The subproject target bridge (`CMakeSubprojectHolder`) -/

/-- The fixed-shape record the subproject's introspection returns for a
target name (the module asserts exactly these five keys). -/
structure TargetInfo where
  inc : String
  src : String
  dep : String
  tgt : String
  func : String
deriving DecidableEq

/-- A configured CMake subproject as the bridge sees it: its directory
name, its introspection table (target name ↦ record), and its variable
table (for `get_variable_method`). -/
structure CMakeSubproject where
  dirname : String
  targets : List (String × TargetInfo)
  varTable : List (String × String)
deriving DecidableEq

/-- `self.held_object.cm_interpreter.target_info(tgt)` (external
introspection, a keyed lookup). -/
def target_info (sp : CMakeSubproject) (tgt : String) : Option TargetInfo :=
  sp.targets.lookup tgt

/-- Lines 71–82: exactly one argument; an unknown name raises
`InterpreterException('The CMake target {} does not exist')`. -/
def _args_to_info (sp : CMakeSubproject) (args : List String) :
    Except PyError TargetInfo :=
  match args with
  | [tgt] =>
    match target_info sp tgt with
    | none => .error (.interpreterException
        ("The CMake target " ++ tgt ++ " does not exist"))
    | some res => .ok res
  | _ => .error (.interpreterException "Exactly one argument is required.")

/-- Modelled from the spec: `SubprojectHolder.get_variable_method` is
not under `src/`; per spec section 4.7 it is the generic variable lookup
on the subproject. -/
def get_variable (sp : CMakeSubproject) (nm : String) : Except PyError String :=
  match sp.varTable.lookup nm with
  | some v => .ok v
  | none => .error (.interpreterException ("Requested variable " ++ nm ++ " not found."))

def dependency (sp : CMakeSubproject) (args : List String) : Except PyError String :=
  (_args_to_info sp args).bind (fun info => get_variable sp info.dep)

def include_directories (sp : CMakeSubproject) (args : List String) :
    Except PyError String :=
  (_args_to_info sp args).bind (fun info => get_variable sp info.inc)

def target (sp : CMakeSubproject) (args : List String) : Except PyError String :=
  (_args_to_info sp args).bind (fun info => get_variable sp info.tgt)

def target_type (sp : CMakeSubproject) (args : List String) : Except PyError String :=
  (_args_to_info sp args).map (fun info => info.func)

def target_list (sp : CMakeSubproject) : List String := sp.targets.map (fun e => e.1)

/-! ## The external-tool probe (`detect_cmake`, `detect_voidp_size`) -/

/-- The probe state held on the module (`cmake_detected`, `cmake_root`)
plus a ghost counter of runs of the external CMake binary. -/
structure CmakeDetectState where
  cmake_detected : Bool
  cmake_root : Option String
  invocations : Nat
deriving DecidableEq

/-- Lines 133–151.  `world i` is the outcome of the `i`-th run of
`cmake --system-information` (`none`: non-zero exit code or no
`CMAKE_ROOT "…"` line in the output — either way the function logs and
returns `False` without touching the state; `some root`: the extracted
root, which is cached together with `cmake_detected = True`).  The early
return on `cmake_detected` is the only caching. -/
def detect_cmake (world : Nat → Option String) (s : CmakeDetectState) :
    Bool × CmakeDetectState :=
  if s.cmake_detected then (true, s)
  else
    match world s.invocations with
    | none => (false, { s with invocations := s.invocations + 1 })
    | some root =>
      (true, { cmake_detected := true, cmake_root := some root,
               invocations := s.invocations + 1 })

/-- Lines 122–131, with a ghost probe counter: `sizeofResult` is `some n`
when a C or C++ compiler is available (its `sizeof('void *')` answer),
`none` when neither exists.  Every call with a compiler available
performs the probe again — the function keeps no state. -/
def detect_voidp_size (sizeofResult : Option Nat) (probes : Nat) :
    Except PyError Nat × Nat :=
  match sizeofResult with
  | none => (.error (.mesonException
      "Requires a C or C++ compiler to compute sizeof(void *)."), probes)
  | some n => (.ok n, probes + 1)

end MesonCMake

namespace MesonCMake

theorem takeName_length : ∀ l : List Char,
    (takeName l).1.length + (takeName l).2.length = l.length := by
  intro l
  induction l with
  | nil => simp [takeName]
  | cons c r ih =>
    by_cases h : isNameChar c = true
    · simp [takeName, h, ← ih]; omega
    · simp [takeName, h]

theorem countBS_le_length : ∀ l : List Char, countBS l ≤ l.length := by
  intro l
  induction l with
  | nil => simp [countBS]
  | cons c r ih =>
    by_cases h : c = '\\'
    · simp [countBS, h]; omega
    · simp [countBS, h]

theorem doReplAux_nil (conf : List (List Char × List Char)) :
    ∀ f, doReplAux conf f [] = ([], []) := by
  intro f
  cases f <;> rfl

theorem doReplAux_mono (conf : List (List Char × List Char)) :
    ∀ f g s, s.length ≤ f → s.length ≤ g →
      doReplAux conf f s = doReplAux conf g s := by
  intro f
  induction f with
  | zero =>
    intro g s hf _
    have hs : s = [] := List.length_eq_zero.mp (Nat.le_zero.mp hf)
    subst hs
    rw [doReplAux_nil, doReplAux_nil]
  | succ f ih =>
    intro g s hf hg
    match s with
    | [] => rw [doReplAux_nil, doReplAux_nil]
    | c :: r =>
      match g with
      | 0 => simp at hg
      | g + 1 =>
        have hrf : r.length ≤ f := by simpa using hf
        have hrg : r.length ≤ g := by simpa using hg
        simp only [doReplAux, doReplStep]
        by_cases hc : c = '\\'
        · simp only [if_pos hc]
          by_cases hb1 : 2 ≤ countBS (c :: r) ∧
              ((c :: r).drop (countBS (c :: r))).head? = some '@'
          · simp only [if_pos hb1]
            have hk : 2 ≤ 2 * (countBS (c :: r) / 2) := by omega
            have hlen : ((c :: r).drop (2 * (countBS (c :: r) / 2))).length ≤ f := by
              simp [List.length_drop]; omega
            have hleng : ((c :: r).drop (2 * (countBS (c :: r) / 2))).length ≤ g := by
              simp [List.length_drop]; omega
            rw [ih g _ hlen hleng]
          · simp only [if_neg hb1]
            by_cases hb2 : r.head? = some '@'
            · simp only [if_pos hb2]
              have h1 : r.tail.length ≤ f := by
                have := List.length_tail r; omega
              have h2 : r.tail.length ≤ g := by
                have := List.length_tail r; omega
              rw [ih g _ h1 h2]
            · simp only [if_neg hb2]
              rw [ih g _ hrf hrg]
        · simp only [if_neg hc]
          by_cases hat : c = '@'
          · simp only [if_pos hat]
            by_cases hb3 : (takeName r).1 ≠ [] ∧ ((takeName r).2).head? = some '@'
            · simp only [if_pos hb3]
              have htl := takeName_length r
              have h1 : ((takeName r).2).tail.length ≤ f := by
                have := List.length_tail (takeName r).2; omega
              have h2 : ((takeName r).2).tail.length ≤ g := by
                have := List.length_tail (takeName r).2; omega
              cases hlk : List.lookup (takeName r).1 conf with
              | none => simp only [hlk]; rw [ih g _ h1 h2]
              | some v => simp only [hlk]; rw [ih g _ h1 h2]
            · simp only [if_neg hb3]
              rw [ih g _ hrf hrg]
          · simp only [if_neg hat]
            rw [ih g _ hrf hrg]

theorem do_replacement_nil (conf : List (List Char × List Char)) :
    do_replacement conf [] = ([], []) := rfl

/-- A character that is neither a backslash nor `@` is copied verbatim
and the scan continues. -/
theorem do_replacement_cons_safe (conf : List (List Char × List Char))
    (c : Char) (r : List Char) (h1 : c ≠ '\\') (h2 : c ≠ '@') :
    do_replacement conf (c :: r) =
      (c :: (do_replacement conf r).1, (do_replacement conf r).2) := by
  show doReplAux conf (c :: r).length (c :: r) = _
  simp only [List.length_cons, doReplAux, doReplStep, if_neg h1, if_neg h2]
  exact rfl

/-- A block of characters free of backslash and `@` is copied verbatim. -/
theorem do_replacement_safe_append (conf : List (List Char × List Char))
    (a b : List Char) (h : ∀ c ∈ a, c ≠ '\\' ∧ c ≠ '@') :
    do_replacement conf (a ++ b) =
      (a ++ (do_replacement conf b).1, (do_replacement conf b).2) := by
  induction a with
  | nil => simp
  | cons c a ih =>
    have hc := h c (by simp)
    have ha : ∀ c ∈ a, c ≠ '\\' ∧ c ≠ '@' := fun x hx => h x (by simp [hx])
    rw [List.cons_append, do_replacement_cons_safe conf c (a ++ b) hc.1 hc.2, ih ha]
    simp

theorem do_replacement_all_safe (conf : List (List Char × List Char))
    (a : List Char) (h : ∀ c ∈ a, c ≠ '\\' ∧ c ≠ '@') :
    do_replacement conf a = (a, []) := by
  have := do_replacement_safe_append conf a [] h
  simpa [do_replacement_nil] using this

/-- The lone escape `\@` emits a literal `@` with the escape consumed. -/
theorem do_replacement_escape (conf : List (List Char × List Char)) (r : List Char) :
    do_replacement conf ('\\' :: '@' :: r) =
      ('@' :: (do_replacement conf r).1, (do_replacement conf r).2) := by
  show doReplAux conf ('\\' :: '@' :: r).length ('\\' :: '@' :: r) = _
  have hk : countBS ('\\' :: '@' :: r) = 1 := by simp [countBS]
  have hcond1 : ¬ (2 ≤ countBS ('\\' :: '@' :: r) ∧
      (('\\' :: '@' :: r).drop (countBS ('\\' :: '@' :: r))).head? = some '@') := by
    rw [hk]; intro h; exact absurd h.1 (by omega)
  have hcond2 : (('@' : Char) :: r).head? = some '@' := rfl
  have hmono := doReplAux_mono conf (r.length + 1) r.length r (by omega) (le_refl _)
  simp only [List.length_cons, doReplAux, doReplStep, if_pos rfl, if_neg hcond1,
    if_pos hcond2, List.tail_cons, hmono]
  rfl

theorem takeName_append_at (nm t : List Char) (h : ∀ c ∈ nm, isNameChar c = true) :
    takeName (nm ++ '@' :: t) = (nm, '@' :: t) := by
  induction nm with
  | nil =>
    have hNC : isNameChar '@' = false := by decide
    simp [takeName, hNC]
  | cons c nm ih =>
    have hc : isNameChar c = true := h c (by simp)
    have hnm : ∀ x ∈ nm, isNameChar x = true := fun x hx => h x (by simp [hx])
    simp [takeName, hc, ih hnm]

/-- A well-formed `@name@` token at the head of the scan: substituted if
mapped, kept verbatim and recorded as missing otherwise; the scan then
continues after the closing `@`. -/
theorem do_replacement_token (conf : List (List Char × List Char))
    (nm r : List Char) (h1 : nm ≠ []) (h2 : ∀ c ∈ nm, isNameChar c = true) :
    do_replacement conf ('@' :: nm ++ '@' :: r) =
      match List.lookup nm conf with
      | some v => (v ++ (do_replacement conf r).1, (do_replacement conf r).2)
      | none => ('@' :: nm ++ '@' :: (do_replacement conf r).1,
                 nm :: (do_replacement conf r).2) := by
  show doReplAux conf ('@' :: nm ++ '@' :: r).length ('@' :: nm ++ '@' :: r) = _
  have htk := takeName_append_at nm r h2
  have hmono := doReplAux_mono conf (nm.length + (r.length + 1)) r.length r
    (by omega) (le_refl _)
  cases hlk : List.lookup nm conf with
  | some v =>
    simp only [List.length_cons, doReplAux]
    simp only [doReplStep, List.append_eq, List.length_append, List.length_cons, if_true,
      htk, if_neg (show ¬('@' : Char) = '\\' by decide), if_pos rfl,
      List.head?_cons, List.tail_cons, ne_eq, eq_self_iff_true, and_true, hlk, hmono,
      if_pos h1]
    rfl
  | none =>
    simp only [List.length_cons, doReplAux]
    simp only [doReplStep, List.append_eq, List.length_append, List.length_cons, if_true,
      htk, if_neg (show ¬('@' : Char) = '\\' by decide), if_pos rfl,
      List.head?_cons, List.tail_cons, ne_eq, eq_self_iff_true, and_true, hlk, hmono,
      if_pos h1]
    rfl

/-- A doubled backslash before `@` halves to a single literal backslash
and the scan continues at the `@`. -/
theorem do_replacement_double_backslash (conf : List (List Char × List Char))
    (r : List Char) :
    do_replacement conf ('\\' :: '\\' :: '@' :: r) =
      ('\\' :: (do_replacement conf ('@' :: r)).1, (do_replacement conf ('@' :: r)).2) := by
  show doReplAux conf ('\\' :: '\\' :: '@' :: r).length ('\\' :: '\\' :: '@' :: r) = _
  have hk : countBS ('\\' :: '\\' :: '@' :: r) = 2 := by simp [countBS]
  have hcond : 2 ≤ countBS ('\\' :: '\\' :: '@' :: r) ∧
      (('\\' :: '\\' :: '@' :: r).drop (countBS ('\\' :: '\\' :: '@' :: r))).head? =
        some '@' := by
    rw [hk]; exact ⟨le_refl 2, rfl⟩
  have hmono := doReplAux_mono conf (r.length + 2) (r.length + 1) ('@' :: r)
    (by simp) (by simp)
  simp only [List.length_cons, doReplAux]
  rw [doReplStep, if_pos (show ('\\' : Char) = '\\' from rfl), if_pos hcond, hk]
  have hdrop : List.drop (2 * (2 / 2)) ('\\' :: '\\' :: '@' :: r) = '@' :: r := rfl
  have hrep : List.replicate (2 / 2) '\\' = ['\\'] := rfl
  rw [hdrop, hrep, hmono]
  rfl

theorem nameChar_safe (c : Char) (h : isNameChar c = true) : c ≠ '\\' ∧ c ≠ '@' := by
  refine ⟨?_, ?_⟩ <;> rintro rfl <;> exact absurd h (by decide)

theorem do_replacement_at_only (conf : List (List Char × List Char)) :
    do_replacement conf ['@'] = (['@'], []) := by
  show doReplAux conf 1 ['@'] = (['@'], [])
  simp [doReplAux, doReplStep, takeName, doReplAux_nil]

/-- Claim C1: a well-formed `@name@` token whose name is absent from the
configuration mapping is left verbatim (unresolved) in the output line,
and its name is recorded in the missing-keys result returned to the
caller of the substitution engine; it is neither dropped nor replaced by
the empty string.  (Stated at the head of the scan; the scan of the rest
of the line continues unchanged after the token.) -/
theorem c1_missing_key_token_preserved (conf : List (List Char × List Char))
    (nm rest : List Char) (h1 : nm ≠ []) (h2 : ∀ c ∈ nm, isNameChar c = true)
    (h3 : List.lookup nm conf = none) :
    do_replacement conf ('@' :: nm ++ '@' :: rest) =
      ('@' :: nm ++ '@' :: (do_replacement conf rest).1,
       nm :: (do_replacement conf rest).2) := by
  rw [do_replacement_token conf nm rest h1 h2, h3]

theorem c1_missing_key_token_preserved_witness :
    ("FOO".data ≠ [] ∧ (∀ c ∈ "FOO".data, isNameChar c = true) ∧
      List.lookup "FOO".data [("key".data, "val".data)] = none) ∧
    do_replacement [("key".data, "val".data)] ('@' :: "FOO".data ++ '@' :: " x".data) =
      ('@' :: "FOO".data ++ '@' :: (do_replacement [("key".data, "val".data)] " x".data).1,
       "FOO".data :: (do_replacement [("key".data, "val".data)] " x".data).2) :=
  ⟨⟨by decide, by decide, by decide⟩,
   c1_missing_key_token_preserved _ _ _ (by decide) (by decide) (by decide)⟩

/-- Claim C6: escaping during rendering.  The scanner's priority order is
fixed by the regex embedded in `doReplStep`; in particular `\@` followed
by a valid name and a trailing `@` renders as the literal text `@name@`
(unresolved — nothing is substituted and nothing is recorded missing),
and a doubled backslash before `@` renders as a single literal backslash
followed by the placeholder processed by the normal rule. -/
theorem c6_escape_semantics (conf : List (List Char × List Char)) (nm : List Char)
    (h1 : nm ≠ []) (h2 : ∀ c ∈ nm, isNameChar c = true) :
    do_replacement conf ('\\' :: '@' :: nm ++ ['@']) = ('@' :: nm ++ ['@'], []) ∧
    do_replacement conf ('\\' :: '\\' :: '@' :: nm ++ ['@']) =
      ('\\' :: (do_replacement conf ('@' :: nm ++ ['@'])).1,
       (do_replacement conf ('@' :: nm ++ ['@'])).2) := by
  have hsafe : ∀ c ∈ nm, c ≠ '\\' ∧ c ≠ '@' := fun c hc => nameChar_safe c (h2 c hc)
  have hnmAt : do_replacement conf (nm ++ ['@']) = (nm ++ ['@'], []) := by
    rw [do_replacement_safe_append conf nm ['@'] hsafe, do_replacement_at_only]
  simp only [List.cons_append]
  constructor
  · rw [do_replacement_escape conf (nm ++ ['@']), hnmAt]
  · exact do_replacement_double_backslash conf (nm ++ ['@'])

theorem c6_escape_semantics_witness :
    ("FOO".data ≠ [] ∧ (∀ c ∈ "FOO".data, isNameChar c = true)) ∧
    (do_replacement [("FOO".data, "bar".data)] ('\\' :: '@' :: "FOO".data ++ ['@']) =
        ('@' :: "FOO".data ++ ['@'], []) ∧
      do_replacement [("FOO".data, "bar".data)] ('\\' :: '\\' :: '@' :: "FOO".data ++ ['@']) =
        ('\\' :: (do_replacement [("FOO".data, "bar".data)] ('@' :: "FOO".data ++ ['@'])).1,
         (do_replacement [("FOO".data, "bar".data)] ('@' :: "FOO".data ++ ['@'])).2)) :=
  ⟨⟨by decide, by decide⟩,
   c6_escape_semantics [("FOO".data, "bar".data)] "FOO".data (by decide) (by decide)⟩

theorem stripLit_some : ∀ p s u : List Char, stripLit p s = some u ↔ s = p ++ u := by
  intro p
  induction p with
  | nil => intro s u; simp [stripLit, eq_comm]
  | cons a p ih =>
    intro s u
    cases s with
    | nil => simp [stripLit]
    | cons c s =>
      by_cases hac : a = c
      · subst hac; simp [stripLit, ih]
      · have hca : ¬ c = a := fun h => hac h.symm
        simp [stripLit, hac, hca]

theorem dotPlus_iff (u : List Char) :
    dotPlus u = true ↔ ∃ c rest, c ≠ '\n' ∧ u = '/' :: c :: rest := by
  match u with
  | [] => simp [dotPlus]
  | [a] => simp [dotPlus]
  | a :: b :: v =>
    simp only [dotPlus, Bool.and_eq_true, beq_iff_eq, bne_iff_ne]
    constructor
    · rintro ⟨rfl, hb⟩
      exact ⟨b, v, hb, rfl⟩
    · rintro ⟨c, rest, hc, heq⟩
      obtain ⟨rfl, rfl, rfl⟩ : a = '/' ∧ b = c ∧ v = rest := by
        simpa using heq
      exact ⟨rfl, hc⟩

theorem lib64Tail_iff (u : List Char) :
    lib64Tail u = true ↔ ∃ v, u = '6' :: '4' :: v ∧ dotPlus v = true := by
  match u with
  | [] => simp [lib64Tail]
  | [a] => simp [lib64Tail]
  | a :: b :: v =>
    simp only [lib64Tail, Bool.and_eq_true, beq_iff_eq]
    constructor
    · rintro ⟨⟨rfl, rfl⟩, h⟩
      exact ⟨v, rfl, h⟩
    · rintro ⟨w, heq, h⟩
      obtain ⟨rfl, rfl, rfl⟩ : a = '6' ∧ b = '4' ∧ v = w := by
        simpa using heq
      exact ⟨⟨rfl, rfl⟩, h⟩

theorem libPart_iff (t : List Char) :
    libPart t = true ↔ ∃ c rest, c ≠ '\n' ∧
      (t = "/lib".data ++ '/' :: c :: rest ∨ t = "/lib64".data ++ '/' :: c :: rest) := by
  cases hst : stripLit "/lib".data t with
  | none =>
    simp only [libPart, hst]
    constructor
    · intro h; cases h
    · rintro ⟨c, rest, hc, h | h⟩
      · have : stripLit "/lib".data t = some ('/' :: c :: rest) :=
          (stripLit_some _ _ _).mpr h
        rw [hst] at this; cases this
      · have heq : t = "/lib".data ++ ('6' :: '4' :: '/' :: c :: rest) := by
          rw [h]; rfl
        have : stripLit "/lib".data t = some ('6' :: '4' :: '/' :: c :: rest) :=
          (stripLit_some _ _ _).mpr heq
        rw [hst] at this; cases this
  | some u =>
    have ht : t = "/lib".data ++ u := (stripLit_some _ _ _).mp hst
    subst ht
    simp only [libPart, hst, afterLib, Bool.or_eq_true, dotPlus_iff, lib64Tail_iff]
    constructor
    · rintro (⟨c, rest, hc, rfl⟩ | ⟨v, rfl, c, rest, hc, rfl⟩)
      · exact ⟨c, rest, hc, Or.inl rfl⟩
      · exact ⟨c, rest, hc, Or.inr rfl⟩
    · rintro ⟨c, rest, hc, h | h⟩
      · left
        have hu : u = '/' :: c :: rest := by
          have h' : "/lib".data ++ u = "/lib".data ++ '/' :: c :: rest := h
          exact List.append_cancel_left h'

        exact ⟨c, rest, hc, hu⟩
      · right
        have hu : u = '6' :: '4' :: '/' :: c :: rest := by
          have h' : "/lib".data ++ u = "/lib".data ++ '6' :: '4' :: '/' :: c :: rest := h
          exact List.append_cancel_left h'
        exact ⟨'/' :: c :: rest, hu, c, rest, hc, rfl⟩

theorem reMatchLibPattern_iff (s : List Char) :
    reMatchLibPattern s = true ↔ ∃ pre mid c rest,
      (pre = [] ∨ pre = "/usr".data) ∧ (mid = "/lib".data ∨ mid = "/lib64".data) ∧
      c ≠ '\n' ∧ s = pre ++ (mid ++ '/' :: c :: rest) := by
  simp only [reMatchLibPattern, Bool.or_eq_true]
  constructor
  · rintro (h | h)
    · cases hst : stripLit "/usr".data s with
      | none => rw [hst] at h; cases h
      | some t =>
        rw [hst] at h
        obtain ⟨c, rest, hc, hm | hm⟩ := (libPart_iff t).mp h
        · refine ⟨"/usr".data, "/lib".data, c, rest, Or.inr rfl, Or.inl rfl, hc, ?_⟩
          rw [(stripLit_some _ _ _).mp hst, hm]
        · refine ⟨"/usr".data, "/lib64".data, c, rest, Or.inr rfl, Or.inr rfl, hc, ?_⟩
          rw [(stripLit_some _ _ _).mp hst, hm]
    · obtain ⟨c, rest, hc, hm | hm⟩ := (libPart_iff s).mp h
      · exact ⟨[], "/lib".data, c, rest, Or.inl rfl, Or.inl rfl, hc, by rw [hm]; rfl⟩
      · exact ⟨[], "/lib64".data, c, rest, Or.inl rfl, Or.inr rfl, hc, by rw [hm]; rfl⟩
  · rintro ⟨pre, mid, c, rest, hpre, hmid, hc, rfl⟩
    have hl : libPart (mid ++ '/' :: c :: rest) = true := by
      refine (libPart_iff _).mpr ⟨c, rest, hc, ?_⟩
      rcases hmid with rfl | rfl
      · exact Or.inl rfl
      · exact Or.inr rfl
    rcases hpre with rfl | rfl
    · right; simpa using hl
    · left
      have hst : stripLit "/usr".data ("/usr".data ++ (mid ++ '/' :: c :: rest)) =
          some (mid ++ '/' :: c :: rest) := (stripLit_some _ _ _).mpr rfl
      rw [hst]
      exact hl

theorem data_append (a b : String) : (a ++ b).data = a.data ++ b.data := by
  cases a; cases b; rfl

theorem joinPath_isabs (pfx d : String) (hp : isabs pfx = true) :
    isabs (joinPath pfx d) = true := by
  unfold joinPath
  by_cases hd : isabs d = true
  · rw [if_pos hd]; exact hd
  · rw [if_neg hd]
    have hhead : pfx.data.head? = some '/' := by
      have := hp; unfold isabs at this; exact beq_iff_eq.mp this
    obtain ⟨t, hpt⟩ : ∃ t, pfx.data = '/' :: t := by
      cases hpd : pfx.data with
      | nil => rw [hpd] at hhead; cases hhead
      | cons c t =>
        rw [hpd] at hhead
        simp only [List.head?_cons, Option.some.injEq] at hhead
        exact ⟨t, by rw [hhead]⟩
    by_cases he : pfx.data = [] ∨ pfx.data.getLast? = some '/'
    · rw [if_pos he]
      unfold isabs
      rw [data_append, hpt]
      rfl
    · rw [if_neg he]
      unfold isabs
      rw [data_append, data_append, hpt]
      rfl

/-- Claim C5: install-path resolution.  A relative `install_dir` is
first joined onto the prefix (resolving against a prefix-joined
directory is the same as resolving against the already absolute one);
the relative path computed for prefix `/usr/local` and install dir
`/usr/local/lib/cmake/Foo` is `../../..`; install dir `/usr/lib/cmake/Foo`
triggers relocation-extra generation; and the matcher accepts exactly
the paths of the form "optionally `/usr`, then `/lib` or `/lib64`, then
a slash and at least one more (non-newline) character". -/
theorem c5_install_path_resolution :
    (∀ pfx d : String, isabs pfx = true → isabs d = false →
        resolveInstallPath pfx d = resolveInstallPath pfx (joinPath pfx d)) ∧
    (resolveInstallPath "/usr/local" "/usr/local/lib/cmake/Foo").1 = "../../.." ∧
    (∀ pfx : String, resolveInstallPath pfx "/usr/lib/cmake/Foo" =
        (relpath pfx "/usr/lib/cmake/Foo", true)) ∧
    (∀ s : List Char, reMatchLibPattern s = true ↔ ∃ pre mid c rest,
        (pre = [] ∨ pre = "/usr".data) ∧ (mid = "/lib".data ∨ mid = "/lib64".data) ∧
        c ≠ '\n' ∧ s = pre ++ (mid ++ '/' :: c :: rest)) := by
  refine ⟨?_, by decide, ?_, reMatchLibPattern_iff⟩
  · intro pfx d hp hd
    have habs : isabs (joinPath pfx d) = true := joinPath_isabs pfx d hp
    simp [resolveInstallPath, hd, habs]
  · intro pfx
    have h1 : isabs "/usr/lib/cmake/Foo" = true := by decide
    have h2 : reMatchLibPattern "/usr/lib/cmake/Foo".data = true := by decide
    simp [resolveInstallPath, h1, h2]

theorem c5_install_path_resolution_witness :
    (isabs "/opt" = true ∧ isabs "lib/cmake/Foo" = false) ∧
    resolveInstallPath "/opt" "lib/cmake/Foo" =
      resolveInstallPath "/opt" (joinPath "/opt" "lib/cmake/Foo") :=
  ⟨⟨by decide, by decide⟩,
   c5_install_path_resolution.1 "/opt" "lib/cmake/Foo" (by decide) (by decide)⟩

/-- Claim C7: the version-file operation's compatibility validation.
`COMPATIBILITIES` is exactly the four-element set; an omitted
`compatibility` keyword behaves as `AnyNewerVersion`; a string outside
the set is rejected with the validation error of line 167; a non-string
value is rejected with the `compatibility is not string.` validation
error.  Rejection returns `Except.error`, so no file record is ever
produced. -/
theorem c7_compatibility_validation :
    COMPATIBILITIES = ["AnyNewerVersion", "SameMajorVersion", "SameMinorVersion",
      "ExactVersion"] ∧
    (∀ (env : VersionEnv) (kw : VersionKwargs), kw.compatibility = none →
      write_basic_package_version_file env kw =
        write_basic_package_version_file env
          { kw with compatibility := some (.str "AnyNewerVersion") }) ∧
    (∀ (env : VersionEnv) (kw : VersionKwargs) (v n s : String),
      kw.version = some (.str v) → kw.name = some (.str n) →
      kw.compatibility = some (.str s) → s ∉ COMPATIBILITIES →
      write_basic_package_version_file env kw = .error (.mesonException
        "compatibility must be either AnyNewerVersion, SameMajorVersion or ExactVersion.")) ∧
    (∀ (env : VersionEnv) (kw : VersionKwargs) (v n : String) (pv : PyVal),
      kw.version = some (.str v) → kw.name = some (.str n) →
      kw.compatibility = some pv → (∀ s, pv ≠ .str s) →
      write_basic_package_version_file env kw =
        .error (.mesonException "compatibility is not string.")) := by
  refine ⟨rfl, ?_, ?_, ?_⟩
  · intro env kw h
    simp [write_basic_package_version_file, h]
  · intro env kw v n s hv hn hc hs
    simp [write_basic_package_version_file, hv, hn, hc, hs]
  · intro env kw v n pv hv hn hc hns
    cases pv with
    | str s => exact absurd rfl (hns s)
    | int m => simp [write_basic_package_version_file, hv, hn, hc]
    | file p => simp [write_basic_package_version_file, hv, hn, hc]
    | confData cd => simp [write_basic_package_version_file, hv, hn, hc]

theorem c7_compatibility_validation_witness :
    write_basic_package_version_file ⟨"lib", "scr", true, "/cm", [], 8⟩
      ⟨some (.str "1.0"), some (.str "Foo"), some (.str "Bogus"), none⟩ =
      .error (.mesonException
        "compatibility must be either AnyNewerVersion, SameMajorVersion or ExactVersion.") :=
  c7_compatibility_validation.2.2.1 ⟨"lib", "scr", true, "/cm", [], 8⟩
    ⟨some (.str "1.0"), some (.str "Foo"), some (.str "Bogus"), none⟩
    "1.0" "Foo" "Bogus" rfl rfl rfl (by decide)

/-- Claim C8: with a valid compatibility mode, successful CMake
detection and a well-typed `install_dir`, a missing
`BasicConfigVersion-<mode>.cmake.in` under the CMake root yields the
dedicated `MesonException` naming the unsupported mode (the existence
check precedes any file access, so no I/O error is ever reported). -/
theorem c8_missing_template_distinct_error
    (env : VersionEnv) (kw : VersionKwargs) (v n s : String)
    (hv : kw.version = some (.str v)) (hn : kw.name = some (.str n))
    (hc : kw.compatibility = some (.str s)) (hs : s ∈ COMPATIBILITIES)
    (hcm : env.cmakeDetected = true)
    (hid : kw.install_dir = none ∨ ∃ d, kw.install_dir = some (.str d))
    (hex : join3 env.cmake_root "Modules"
      ("BasicConfigVersion-" ++ s ++ ".cmake.in") ∉ env.existing_files) :
    write_basic_package_version_file env kw = .error (.mesonException
        ("your cmake installation doesn\x27t support the " ++ s ++ " compatibility")) ∧
    ∀ msg, write_basic_package_version_file env kw ≠ .error (.ioError msg) := by
  have hmain : write_basic_package_version_file env kw = .error (.mesonException
      ("your cmake installation doesn\x27t support the " ++ s ++ " compatibility")) := by
    rcases hid with hid | ⟨d, hid⟩
    · simp [write_basic_package_version_file, hv, hn, hc, hs, hcm, hid, hex]
    · simp [write_basic_package_version_file, hv, hn, hc, hs, hcm, hid, hex]
  refine ⟨hmain, ?_⟩
  intro msg
  rw [hmain]
  intro h
  cases h

theorem c8_missing_template_distinct_error_witness :
    write_basic_package_version_file ⟨"lib", "scr", true, "/cm", [], 8⟩
      ⟨some (.str "1.0"), some (.str "Foo"), some (.str "SameMajorVersion"), none⟩ =
      .error (.mesonException
        "your cmake installation doesn\x27t support the SameMajorVersion compatibility") :=
  (c8_missing_template_distinct_error ⟨"lib", "scr", true, "/cm", [], 8⟩
    ⟨some (.str "1.0"), some (.str "Foo"), some (.str "SameMajorVersion"), none⟩
    "1.0" "Foo" "SameMajorVersion" rfl rfl rfl (by decide) rfl (Or.inl rfl)
    (by decide)).1

/-- Claim C2: when the call's keyword arguments contain `install_dir`,
the line-247 branch that would assign the `install_dir` local is
skipped, so the `isinstance` read on line 249 raises `UnboundLocalError`
before any output is produced — for every supplied value `v`, which is
never consulted.  When the key is absent, the local is assigned the
default `<libdir>/cmake/<name>` and the operation completes with that
install dir. -/
theorem c2_install_dir_unbound_local :
    (∀ (env : ConfigureEnv) (kw : ConfigureKwargs) (p : String) (nv v : PyVal),
      kw.input = some (.single (.file p)) → kw.name = some nv →
      kw.install_dir = some v →
      configure_package_config_file env [] kw =
        .error (.unboundLocalError "install_dir")) ∧
    (∀ (env : ConfigureEnv) (kw : ConfigureKwargs) (p n : String)
        (cd : List (List Char × List Char)) (lns : List (List Char)),
      kw.input = some (.single (.file p)) → kw.name = some (.str n) →
      kw.install_dir = none → kw.configuration = some (.confData cd) →
      (env.input_files).lookup (joinPath env.source_dir p) = some lns →
      ∃ r, configure_package_config_file env [] kw = .ok r ∧
        r.install_dir = join3 env.libdir "cmake" n) := by
  constructor
  · intro env kw p nv v hi hn hid
    simp [configure_package_config_file, hi, hn, hid]
  · intro env kw p n cd lns hi hn hid hcfg hread
    simp only [configure_package_config_file, hi, hn, hid, hcfg, hread]
    exact ⟨_, rfl, rfl⟩

theorem c2_install_dir_unbound_local_witness :
    configure_package_config_file ⟨"/s", "/b", "", "lib", "/usr", []⟩ []
      ⟨some (.single (.file "x.cmake.in")), some (.str "Foo"),
        some (.str "/somewhere/else"), none⟩ =
      .error (.unboundLocalError "install_dir") :=
  c2_install_dir_unbound_local.1 ⟨"/s", "/b", "", "lib", "/usr", []⟩
    ⟨some (.single (.file "x.cmake.in")), some (.str "Foo"),
      some (.str "/somewhere/else"), none⟩
    "x.cmake.in" (.str "Foo") (.str "/somewhere/else") rfl rfl rfl

theorem lookupFS_removeFS_same (fs : FileSys) (p : String) :
    lookupFS (removeFS fs p) p = none := by
  induction fs with
  | nil => rfl
  | cons e fs ih =>
    obtain ⟨k, v⟩ := e
    by_cases hkp : k = p
    · simp only [removeFS, List.filter_cons]
      rw [if_neg (by simp [hkp])]
      exact ih
    · simp only [removeFS, List.filter_cons]
      rw [if_pos (by simp [hkp])]
      simp only [lookupFS, List.lookup_cons]
      rw [beq_eq_false_iff_ne.mpr (fun hq => hkp hq.symm)]
      exact ih

theorem lookupFS_removeFS_ne (fs : FileSys) (p q : String) (h : q ≠ p) :
    lookupFS (removeFS fs p) q = lookupFS fs q := by
  induction fs with
  | nil => rfl
  | cons e fs ih =>
    obtain ⟨k, v⟩ := e
    by_cases hkp : k = p
    · simp only [removeFS, List.filter_cons]
      rw [if_neg (by simp [hkp])]
      have hb : (q == k) = false :=
        beq_eq_false_iff_ne.mpr (fun hq => h (hq.trans hkp))
      simp only [lookupFS, List.lookup_cons]
      rw [hb]
      exact ih
    · simp only [removeFS, List.filter_cons]
      rw [if_pos (by simp [hkp])]
      simp only [lookupFS, List.lookup_cons]
      cases hqk : (q == k) with
      | true => rfl
      | false => exact ih

theorem lookupFS_setFile_same (fs : FileSys) (p : String) (fi : FileInfo) :
    lookupFS (setFile fs p fi) p = some fi := by
  simp [lookupFS, setFile]

theorem lookupFS_setFile_ne (fs : FileSys) (p q : String) (fi : FileInfo) (h : q ≠ p) :
    lookupFS (setFile fs p fi) q = lookupFS fs q := by
  simp only [lookupFS, setFile, List.lookup_cons]
  rw [beq_eq_false_iff_ne.mpr h]
  exact lookupFS_removeFS_ne fs p q h

theorem lookupFS_writeNew_ne (fs : FileSys) (p q : String) (content : List Char)
    (dmode : Nat) (h : q ≠ p) :
    lookupFS (writeNew fs p content dmode) q = lookupFS fs q := by
  unfold writeNew
  cases lookupFS fs p with
  | none => exact lookupFS_setFile_ne fs p q _ h
  | some fi => exact lookupFS_setFile_ne fs p q _ h

theorem string_append_tilde_ne (s : String) : s ++ "~" ≠ s := by
  intro h
  have hl := congrArg String.length h
  rw [String.length_append] at hl
  have : ("~" : String).length = 1 := rfl
  omega

/-- Claim C3: the write phase of package-config generation.  The full
rendered content goes to the sibling path `outfile + "~"` (distinct from
the destination); the template's permission bits are copied onto that
temporary path; only the final (atomic-replace) step changes the
destination; hence in every state of the trace the destination holds
either its original value or the complete rendered file — never partial
content — and in the final state it holds the rendered content with the
template's mode while the temporary file is gone. -/
theorem c3_atomic_write_no_partial (fs : FileSys) (infile outfile : String)
    (rendered : List Char) (dmode : Nat) (mi : FileInfo)
    (h1 : lookupFS fs infile = some mi) (h2 : infile ≠ outfile ++ "~") :
    (outfile ++ "~" ≠ outfile) ∧
    (∃ m, lookupFS (writeNew fs (outfile ++ "~") rendered dmode) (outfile ++ "~") =
      some ⟨rendered, m⟩) ∧
    lookupFS (copymode (writeNew fs (outfile ++ "~") rendered dmode) infile
        (outfile ++ "~")) (outfile ++ "~") = some ⟨rendered, mi.mode⟩ ∧
    (∀ s ∈ create_package_file_write fs infile outfile rendered dmode,
      lookupFS s outfile = lookupFS fs outfile ∨
      lookupFS s outfile = some ⟨rendered, mi.mode⟩) ∧
    lookupFS (replace_if_different
        (copymode (writeNew fs (outfile ++ "~") rendered dmode) infile (outfile ++ "~"))
        outfile (outfile ++ "~")) outfile = some ⟨rendered, mi.mode⟩ ∧
    lookupFS (replace_if_different
        (copymode (writeNew fs (outfile ++ "~") rendered dmode) infile (outfile ++ "~"))
        outfile (outfile ++ "~")) (outfile ++ "~") = none := by
  have htne : outfile ++ "~" ≠ outfile := string_append_tilde_ne outfile
  have hone : outfile ≠ outfile ++ "~" := fun h => htne h.symm
  -- state 1: the temporary file holds the full rendered content
  have hw : ∃ m, lookupFS (writeNew fs (outfile ++ "~") rendered dmode) (outfile ++ "~") =
      some ⟨rendered, m⟩ := by
    unfold writeNew
    cases lookupFS fs (outfile ++ "~") with
    | none => exact ⟨dmode, lookupFS_setFile_same _ _ _⟩
    | some fi => exact ⟨fi.mode, lookupFS_setFile_same _ _ _⟩
  obtain ⟨m1, hw1⟩ := hw
  -- state 1 leaves the destination as it was
  have hs1out : lookupFS (writeNew fs (outfile ++ "~") rendered dmode) outfile =
      lookupFS fs outfile := lookupFS_writeNew_ne fs _ _ _ _ hone
  -- the template is untouched by the temporary write
  have hs1in : lookupFS (writeNew fs (outfile ++ "~") rendered dmode) infile =
      some mi := by rw [lookupFS_writeNew_ne fs _ _ _ _ h2]; exact h1
  -- state 2: copymode rewrites the temporary file with the template's mode
  have hs2 : copymode (writeNew fs (outfile ++ "~") rendered dmode) infile (outfile ++ "~") =
      setFile (writeNew fs (outfile ++ "~") rendered dmode) (outfile ++ "~")
        ⟨rendered, mi.mode⟩ := by
    unfold copymode
    rw [hs1in, hw1]
  have hs2tmp : lookupFS (copymode (writeNew fs (outfile ++ "~") rendered dmode) infile
      (outfile ++ "~")) (outfile ++ "~") = some ⟨rendered, mi.mode⟩ := by
    rw [hs2]; exact lookupFS_setFile_same _ _ _
  have hs2out : lookupFS (copymode (writeNew fs (outfile ++ "~") rendered dmode) infile
      (outfile ++ "~")) outfile = lookupFS fs outfile := by
    rw [hs2, lookupFS_setFile_ne _ _ _ _ hone]; exact hs1out
  -- state 3: the atomic replace
  have hs3 : replace_if_different
      (copymode (writeNew fs (outfile ++ "~") rendered dmode) infile (outfile ++ "~"))
      outfile (outfile ++ "~") =
      removeFS (setFile (copymode (writeNew fs (outfile ++ "~") rendered dmode) infile
        (outfile ++ "~")) outfile ⟨rendered, mi.mode⟩) (outfile ++ "~") := by
    unfold replace_if_different
    rw [hs2tmp]
  have hs3out : lookupFS (replace_if_different
      (copymode (writeNew fs (outfile ++ "~") rendered dmode) infile (outfile ++ "~"))
      outfile (outfile ++ "~")) outfile = some ⟨rendered, mi.mode⟩ := by
    rw [hs3, lookupFS_removeFS_ne _ _ _ hone]
    exact lookupFS_setFile_same _ _ _
  have hs3tmp : lookupFS (replace_if_different
      (copymode (writeNew fs (outfile ++ "~") rendered dmode) infile (outfile ++ "~"))
      outfile (outfile ++ "~")) (outfile ++ "~") = none := by
    rw [hs3]
    exact lookupFS_removeFS_same _ _
  refine ⟨htne, ⟨m1, hw1⟩, hs2tmp, ?_, hs3out, hs3tmp⟩
  intro s hs
  simp only [create_package_file_write, List.mem_cons, List.mem_singleton,
    List.not_mem_nil, or_false] at hs
  rcases hs with rfl | rfl | rfl | rfl
  · exact Or.inl rfl
  · exact Or.inl hs1out
  · exact Or.inl hs2out
  · exact Or.inr hs3out

theorem c3_atomic_write_no_partial_witness :
    (lookupFS [("in.txt", ⟨"T".data, 420⟩)] "in.txt" = some ⟨"T".data, 420⟩ ∧
      "in.txt" ≠ "out" ++ "~") ∧
    (("out" ++ "~" ≠ "out") ∧
      (∃ m, lookupFS (writeNew [("in.txt", ⟨"T".data, 420⟩)] ("out" ++ "~") "R".data 7)
        ("out" ++ "~") = some ⟨"R".data, m⟩) ∧
      lookupFS (copymode (writeNew [("in.txt", ⟨"T".data, 420⟩)] ("out" ++ "~") "R".data 7)
        "in.txt" ("out" ++ "~")) ("out" ++ "~") =
        some ⟨"R".data, (⟨"T".data, 420⟩ : FileInfo).mode⟩ ∧
      (∀ s ∈ create_package_file_write [("in.txt", ⟨"T".data, 420⟩)] "in.txt" "out"
          "R".data 7,
        lookupFS s "out" = lookupFS [("in.txt", ⟨"T".data, 420⟩)] "out" ∨
        lookupFS s "out" = some ⟨"R".data, (⟨"T".data, 420⟩ : FileInfo).mode⟩) ∧
      lookupFS (replace_if_different
        (copymode (writeNew [("in.txt", ⟨"T".data, 420⟩)] ("out" ++ "~") "R".data 7)
          "in.txt" ("out" ++ "~")) "out" ("out" ++ "~")) "out" =
        some ⟨"R".data, (⟨"T".data, 420⟩ : FileInfo).mode⟩ ∧
      lookupFS (replace_if_different
        (copymode (writeNew [("in.txt", ⟨"T".data, 420⟩)] ("out" ++ "~") "R".data 7)
          "in.txt" ("out" ++ "~")) "out" ("out" ++ "~")) ("out" ++ "~") = none) :=
  ⟨⟨by decide, by decide⟩,
   c3_atomic_write_no_partial [("in.txt", ⟨"T".data, 420⟩)] "in.txt" "out" "R".data 7
     ⟨"T".data, 420⟩ (by decide) (by decide)⟩

/-- Claim C9 counterexample: on a bridge wrapping subproject `libfoo`
with targets `core` and `util`, looking up `nonexistent` fails with
`The CMake target nonexistent does not exist` — a message that names the
target but does **not** name the subproject, so the claim that the error
names both is false. -/
theorem c9_error_omits_subproject_cex :
    target ⟨"libfoo", [("core", ⟨"ci", "cs", "cd", "ct", "cf"⟩),
        ("util", ⟨"ui", "us", "ud", "ut", "uf"⟩)], []⟩ ["nonexistent"] =
      .error (.interpreterException "The CMake target nonexistent does not exist") ∧
    containsSeq "nonexistent".data
      "The CMake target nonexistent does not exist".data = true ∧
    containsSeq "libfoo".data
      "The CMake target nonexistent does not exist".data = false := by
  decide

/-- Claim C9 (amended): every target-name-taking bridge operation
(`dependency`, `include_directories`, `target`, `target_type`) called
with a name unknown to the subproject's introspection fails with the
lookup error `The CMake target <name> does not exist`, which names the
unknown target; the subproject is not named in the message. -/
theorem c9_unknown_target_error_names_target (sp : CMakeSubproject) (t : String)
    (h : target_info sp t = none) :
    dependency sp [t] =
      .error (.interpreterException ("The CMake target " ++ t ++ " does not exist")) ∧
    include_directories sp [t] =
      .error (.interpreterException ("The CMake target " ++ t ++ " does not exist")) ∧
    target sp [t] =
      .error (.interpreterException ("The CMake target " ++ t ++ " does not exist")) ∧
    target_type sp [t] =
      .error (.interpreterException ("The CMake target " ++ t ++ " does not exist")) := by
  refine ⟨?_, ?_, ?_, ?_⟩ <;>
    simp [dependency, include_directories, target, target_type, _args_to_info, h,
      Except.bind, Except.map]

theorem c9_unknown_target_error_names_target_witness :
    target_info (⟨"sub", [("core", ⟨"i", "s", "d", "t", "f"⟩)], []⟩ : CMakeSubproject)
      "missing" = none ∧
    dependency ⟨"sub", [("core", ⟨"i", "s", "d", "t", "f"⟩)], []⟩ ["missing"] =
      .error (.interpreterException "The CMake target missing does not exist") :=
  ⟨by decide,
   (c9_unknown_target_error_names_target ⟨"sub", [("core", ⟨"i", "s", "d", "t", "f"⟩)], []⟩
     "missing" (by decide)).1⟩

/-- Claim C10 counterexample: with an external world in which every
CMake invocation fails, a first completed call to `detect_cmake` leaves
the ghost invocation counter at 1 and a second call drives it to 2 —
the failure outcome was not cached and the external binary was invoked
again; likewise two `detect_voidp_size` calls perform two compiler
probes.  This refutes caching "both on success and on failure" and the
claimed pointer-size caching. -/
theorem c10_probe_recache_cex :
    ¬ ((detect_cmake (fun _ => none)
          ((detect_cmake (fun _ => none) ⟨false, none, 0⟩).2)).2.invocations =
        ((detect_cmake (fun _ => none) ⟨false, none, 0⟩).2).invocations) ∧
    ¬ ((detect_voidp_size (some 8) (detect_voidp_size (some 8) 0).2).2 =
        (detect_voidp_size (some 8) 0).2) := by
  decide

/-- Claim C10 (amended): `detect_cmake` caches only success — a call on
an already-detected state returns `True` without running the binary, and
after any call that returned `True` every later call is served from the
cache; but every call on an undetected state runs the binary, and a
failed call leaves the state undetected (so the next call runs the
binary again).  `detect_voidp_size` keeps no cache at all: every call
with a compiler available performs the probe. -/
theorem c10_success_only_caching (world : Nat → Option String) (s : CmakeDetectState) :
    (s.cmake_detected = true → detect_cmake world s = (true, s)) ∧
    ((detect_cmake world s).1 = true →
      detect_cmake world (detect_cmake world s).2 = (true, (detect_cmake world s).2)) ∧
    (s.cmake_detected = false →
      (detect_cmake world s).2.invocations = s.invocations + 1) ∧
    (s.cmake_detected = false → world s.invocations = none →
      (detect_cmake world s).1 = false ∧
      (detect_cmake world s).2.cmake_detected = false ∧
      (detect_cmake world s).2.cmake_root = s.cmake_root) ∧
    (∀ n probes : Nat, detect_voidp_size (some n) probes = (.ok n, probes + 1)) := by
  refine ⟨?_, ?_, ?_, ?_, fun n probes => rfl⟩
  · intro h
    simp [detect_cmake, h]
  · by_cases hd : s.cmake_detected = true
    · intro _
      simp [detect_cmake, hd]
    · have hd' : s.cmake_detected = false := by
        cases hsd : s.cmake_detected
        · rfl
        · exact absurd hsd hd
      cases hw : world s.invocations with
      | none => simp [detect_cmake, hd', hw]
      | some root => simp [detect_cmake, hd', hw]
  · intro h
    cases hw : world s.invocations with
    | none => simp [detect_cmake, h, hw]
    | some root => simp [detect_cmake, h, hw]
  · intro h hw
    simp [detect_cmake, h, hw]

theorem c10_success_only_caching_witness :
    ((⟨true, some "/r", 3⟩ : CmakeDetectState).cmake_detected = true) ∧
    detect_cmake (fun _ => some "/r") ⟨true, some "/r", 3⟩ =
      (true, ⟨true, some "/r", 3⟩) :=
  ⟨rfl, (c10_success_only_caching (fun _ => some "/r") ⟨true, some "/r", 3⟩).1 rfl⟩

/-- Claim C4 counterexample: the generic placeholder scan **does** run
over the values embedded in the composed Package-Init Block.  With the
input file name `@FOO@` and a mapping containing `FOO ↦ bar`, rendering
the line `@PACKAGE_INIT@` produces a block whose header reads
`The input file was bar` — the embedded value was substituted by the
generic scan rather than left verbatim, refuting the claim that the
embedded values are not subject to a second substitution pass. -/
theorem c4_embedded_value_rescanned_cex :
    containsSeq "The input file was bar ".data
      (processLine [("FOO".data, "bar".data)]
        (composePackageInit "@FOO@".data "..".data []) "@PACKAGE_INIT@\n".data) = true ∧
    containsSeq "@FOO@".data
      (processLine [("FOO".data, "bar".data)]
        (composePackageInit "@FOO@".data "..".data []) "@PACKAGE_INIT@\n".data) = false := by
  decide

/-- Claim C4 (amended): `@PACKAGE_INIT@` is resolved textually (plain
string replacement with the pre-composed block) before the single
generic scan runs over the expanded line; that one scan then also
processes the block — its escaped `\@PACKAGE_INIT\@` header renders as
`@PACKAGE_INIT@`, and embedded values that contain no `@` or backslash
(here a relative path and an input file name) pass through verbatim, for
every configuration mapping (no key of the mapping is consulted inside
the block).  A value containing a well-formed token would instead be
substituted by that scan (see the counterexample). -/
theorem c4_package_init_textual_then_single_scan (conf : List (List Char × List Char)) :
    create_package_file_render conf "/src/FooConfig.cmake.in".data "../..".data []
      ["@PACKAGE_INIT@\n".data] =
    [("\n####### Expanded from @PACKAGE_INIT@ by configure_package_config_file() #######\n####### Any changes to this file will be overwritten by the next CMake run ####\n####### The input file was /src/FooConfig.cmake.in ########\n\nget_filename_component(PACKAGE_PREFIX_DIR \"${CMAKE_CURRENT_LIST_DIR}/../..\" ABSOLUTE)\n" ++ PACKAGE_INIT_SET_AND_CHECK ++ "\n").data] := by
  have hX : replaceAll "@PACKAGE_INIT@".data
      (composePackageInit "/src/FooConfig.cmake.in".data "../..".data [])
      "@PACKAGE_INIT@\n".data =
      "\n####### Expanded from ".data ++ '\\' :: '@' ::
        ("PACKAGE_INIT".data ++ '\\' :: '@' ::
          (" by configure_package_config_file() #######\n####### Any changes to this file will be overwritten by the next CMake run ####\n####### The input file was /src/FooConfig.cmake.in ########\n\nget_filename_component(PACKAGE_PREFIX_DIR \"${CMAKE_CURRENT_LIST_DIR}/../..\" ABSOLUTE)\n" ++ PACKAGE_INIT_SET_AND_CHECK ++ "\n").data) := by
    decide
  have h1 : ∀ c ∈ "\n####### Expanded from ".data, c ≠ '\\' ∧ c ≠ '@' := by decide
  have h2 : ∀ c ∈ "PACKAGE_INIT".data, c ≠ '\\' ∧ c ≠ '@' := by decide
  have h3 : ∀ c ∈ (" by configure_package_config_file() #######\n####### Any changes to this file will be overwritten by the next CMake run ####\n####### The input file was /src/FooConfig.cmake.in ########\n\nget_filename_component(PACKAGE_PREFIX_DIR \"${CMAKE_CURRENT_LIST_DIR}/../..\" ABSOLUTE)\n" ++ PACKAGE_INIT_SET_AND_CHECK ++ "\n").data,
      c ≠ '\\' ∧ c ≠ '@' := by decide
  simp only [create_package_file_render, List.map_cons, List.map_nil, processLine]
  rw [hX]
  rw [do_replacement_safe_append conf _ _ h1]
  rw [do_replacement_escape]
  rw [do_replacement_safe_append conf _ _ h2]
  rw [do_replacement_escape]
  rw [do_replacement_all_safe conf _ h3]
  decide

end MesonCMake
